import Mathlib

/-!
Verification of the Archess authoritative match-state core.

This file gives a shallow embedding of the server-side core of the Archess
repository — the lobby `LobbyManager`, the turn-based `GameManager` (the
variant with per-kind movement limits, axis-aligned path checking and the
`currentTurnPlayerId` turn pointer, which is the later of the two schema
variants present in the source and the one the design document describes),
and the socket `gameAction` handler of `server/src/index.ts` — and proves
properties of that embedding.

Conventions of the embedding:
* TypeScript numbers used as board coordinates, sizes and timestamps are
  modelled as `Int` (all arithmetic in the embedded code is small-integer
  exact, no overflow or float rounding is involved).
* JavaScript `Map` objects are modelled as association lists with
  `lookupEntry` / `setEntry` / `eraseEntry` mirroring `get` / `set` / `delete`.
* A `throw` inside `GameManager.handleAction` is modelled by returning
  `Except.error` with the thrown message and leaving the state table
  untouched (the TypeScript `set` that stores the new state is only reached
  on the success path).
* JavaScript string truthiness (`if (match.player2)`) is modelled by
  `truthy : Option String → Bool`, which is `false` for a missing field and
  for the empty string, exactly as in JS.
* Template interpolation of a possibly-missing field carries JS semantics:
  an absent value prints as `"undefined"` (`optStr`).
-/

deriving instance DecidableEq for Except

namespace Archess

/-! ## Data model

Mirrors `shared/types/game.d.ts` and `shared/types/lobby.ts`, specialised to
the later server schema: unit combat stats are flattened onto the unit record
and the turn pointer is `currentTurnPlayerId`, as in the unnamed `GameManager`
source file (part_001). -/

structure Position where
  x : Int
  y : Int
deriving DecidableEq

/-- The unit kinds the server actually creates and for which `MOVEMENT_LIMITS`
is defined: `'CHAMPION' | 'SCOUT' | 'DEFENDER' | 'MAGE'`. -/
inductive UnitType where
  | CHAMPION
  | SCOUT
  | DEFENDER
  | MAGE
deriving DecidableEq

inductive TileType where
  | EMPTY
  | WALL
  | PORTAL
  | POWER_NODE
deriving DecidableEq

inductive GamePhase where
  | TURN_BASED
  | BATTLE
deriving DecidableEq

inductive GameActionType where
  | MOVE
  | ATTACK
  | SPECIAL_ABILITY
  | END_TURN
deriving DecidableEq

structure Unit where
  id : String
  type : UnitType
  position : Position
  owner : String
  health : Int
  maxHealth : Int
  attack : Int
  defense : Int
  speed : Int
deriving DecidableEq

structure Player where
  id : String
  name : String
  color : String
deriving DecidableEq

structure Board where
  width : Int
  height : Int
  tiles : List (List TileType)
  units : List Unit
deriving DecidableEq

structure GameState where
  id : String
  board : Board
  currentTurnPlayerId : String
  phase : GamePhase
  players : List Player
  matchId : String := ""
deriving DecidableEq

structure GameAction where
  type : GameActionType
  playerId : String
  unitId : String
  targetPosition : Option Position
  timestamp : Int := 0
  matchId : String := ""
deriving DecidableEq

inductive MatchStatus where
  | waiting
  | in_progress
  | completed
deriving DecidableEq

inductive PlayerRole where
  | player1
  | player2
deriving DecidableEq

structure Match where
  id : String
  player1 : Option String := none
  player2 : Option String := none
  status : MatchStatus
  createdAt : Int
deriving DecidableEq

/-! ## JavaScript-semantics helpers -/

/-- JS truthiness of an optional string field: `undefined` and `""` are falsy. -/
def truthy : Option String → Bool
  | none => false
  | some s => !(s == "")

/-- JS template interpolation of a possibly-undefined string. -/
def optStr : Option String → String
  | none => "undefined"
  | some s => s

/-- `Map.get`. -/
def lookupEntry {β : Type} : List (String × β) → String → Option β
  | [], _ => none
  | (k, v) :: rest, key => if k = key then some v else lookupEntry rest key

/-- `Map.set`: replace the entry if the key is present, else append it. -/
def setEntry {β : Type} : List (String × β) → String → β → List (String × β)
  | [], key, v => [(key, v)]
  | (k, v') :: rest, key, v =>
      if k = key then (key, v) :: rest else (k, v') :: setEntry rest key v

/-- `Map.delete`. -/
def eraseEntry {β : Type} (m : List (String × β)) (key : String) : List (String × β) :=
  m.filter (fun e => !(e.1 == key))

/-! ## Game engine (`GameManager`, unnamed source part_001) -/

/-- `MOVEMENT_LIMITS` table from the top of the `GameManager` source. -/
def MOVEMENT_LIMITS : UnitType → Nat
  | .CHAMPION => 1
  | .SCOUT => 3
  | .DEFENDER => 1
  | .MAGE => 2

/-- `Math.sign`. -/
def signI (z : Int) : Int :=
  if 0 < z then 1 else if z < 0 then -1 else 0

/-- Is any unit standing on tile `(x, y)`? (the path-obstruction lookup). -/
def occupiedAt (units : List Unit) (x y : Int) : Bool :=
  units.any (fun u => u.position.x == x && u.position.y == y)

/-- `gameState.board.tiles[y][x]`. The access in `isValidMove` happens only
after the bounds check, so the in-range default is irrelevant; an access past
the end of the array yields `undefined` in JS, which (like the `EMPTY` default
here) is not equal to `WALL`. -/
def tileAt (board : Board) (x y : Int) : TileType :=
  (board.tiles.getD y.toNat []).getD x.toNat TileType.EMPTY

/-- The path-obstruction `while` loop of `isValidMove`: starting from
`(currentX, currentY)` step by `(dx, dy)` towards `(tx, ty)`; return `false`
as soon as a unit occupies a visited tile strictly before the target.  The
loop is modelled with explicit fuel; `isValidMove` passes `fuel = distance`,
which is exactly the number of iterations the loop performs, so the fuel
never runs out before the loop's own exit conditions fire. -/
def pathFree (units : List Unit) (tx ty dx dy : Int) : Nat → Int → Int → Bool
  | 0, _, _ => true
  | fuel + 1, currentX, currentY =>
    if currentX = tx ∧ currentY = ty then true
    else if currentX + dx = tx ∧ currentY + dy = ty then true
    else if occupiedAt units (currentX + dx) (currentY + dy) = true then false
    else pathFree units tx ty dx dy fuel (currentX + dx) (currentY + dy)

/-- `GameManager.isValidMove` (unnamed part_001, lines 128–211), checks in
source order: not the current tile, in bounds, not a wall, no diagonal,
within the kind's movement limit, path unobstructed, no friendly unit at the
target. -/
def isValidMove (unit : Unit) (targetPosition : Position) (gameState : GameState) : Bool :=
  if unit.position.x = targetPosition.x ∧ unit.position.y = targetPosition.y then false
  else if targetPosition.x < 0 ∨ targetPosition.x ≥ gameState.board.width
      ∨ targetPosition.y < 0 ∨ targetPosition.y ≥ gameState.board.height then false
  else if tileAt gameState.board targetPosition.x targetPosition.y = TileType.WALL then false
  else if 0 < (targetPosition.x - unit.position.x).natAbs
      ∧ 0 < (targetPosition.y - unit.position.y).natAbs then false
  else if MOVEMENT_LIMITS unit.type
      < (targetPosition.x - unit.position.x).natAbs
        + (targetPosition.y - unit.position.y).natAbs then false
  else if 1 < (targetPosition.x - unit.position.x).natAbs
        + (targetPosition.y - unit.position.y).natAbs
      ∧ pathFree gameState.board.units targetPosition.x targetPosition.y
          (signI (targetPosition.x - unit.position.x))
          (signI (targetPosition.y - unit.position.y))
          ((targetPosition.x - unit.position.x).natAbs
            + (targetPosition.y - unit.position.y).natAbs)
          unit.position.x unit.position.y = false then false
  else if gameState.board.units.any (fun u =>
      u.position.x == targetPosition.x && u.position.y == targetPosition.y
        && u.owner == unit.owner) then false
  else true

/-- `GameManager.validateAction` (unnamed part_001, lines 75–114). -/
def validateAction (action : GameAction) (gameState : GameState) : Bool :=
  if action.playerId = "player1" ∧ gameState.players.length < 2 then false
  else if ¬(action.playerId = gameState.currentTurnPlayerId) then false
  else if ¬(gameState.phase = GamePhase.TURN_BASED) then false
  else if action.type = GameActionType.END_TURN then true
  else
    match gameState.board.units.find? (fun u => u.id == action.unitId) with
    | none => false
    | some unit =>
      if ¬(unit.owner = action.playerId) then false
      else if action.type = GameActionType.MOVE ∧ action.targetPosition = none then false
      else
        match action.type, action.targetPosition with
        | GameActionType.MOVE, some targetPosition => isValidMove unit targetPosition gameState
        | _, _ => true

/-- `GameManager.handleMoveAction` (unnamed part_001, lines 213–260).  The
TypeScript indexes the units array with the result of `findIndex` without a
found check; `handleAction` only calls it after validation succeeded, which
guarantees the moving unit exists, so the `none` branches are unreachable
there and are modelled as errors. -/
def handleMoveAction (action : GameAction) (gameState : GameState) : Except String GameState :=
  match action.targetPosition with
  | none => .error "Target position is required for move action"
  | some targetPosition =>
    match gameState.board.units.findIdx? (fun u => u.id == action.unitId) with
    | none => .error "Unit not found"
    | some unitIndex =>
      match gameState.board.units[unitIndex]? with
      | none => .error "Unit not found"
      | some unit =>
        let enemyUnitIdx? := gameState.board.units.findIdx? (fun u =>
          u.position.x == targetPosition.x && u.position.y == targetPosition.y
            && !(u.owner == unit.owner))
        let movedUnits :=
          gameState.board.units.set unitIndex { unit with position := targetPosition }
        let updatedUnits :=
          match enemyUnitIdx? with
          | some enemyUnitIndex => movedUnits.eraseIdx enemyUnitIndex
          | none => movedUnits
        .ok { gameState with board := { gameState.board with units := updatedUnits } }

/-- `GameManager.handleEndTurnAction` (unnamed part_001, lines 262–271).
`findIndex` yields `-1` when the current turn pointer matches no player; the
subsequent `(-1 + 1) % players.length` then selects player 0, exactly as in
JS.  An empty players list would make the TS crash on
`players[NaN].id`; that branch is modelled by leaving the pointer empty. -/
def handleEndTurnAction (_action : GameAction) (gameState : GameState) : GameState :=
  let currentPlayerIndex : Int :=
    match gameState.players.findIdx? (fun p => p.id == gameState.currentTurnPlayerId) with
    | some i => (i : Int)
    | none => -1
  let nextPlayerIndex := (currentPlayerIndex + 1) % (gameState.players.length : Int)
  match gameState.players[nextPlayerIndex.toNat]? with
  | some p => { gameState with currentTurnPlayerId := p.id }
  | none => { gameState with currentTurnPlayerId := "" }

/-- The `GameManager`'s `gameStates` map. -/
abbrev Store := List (String × GameState)

/-- `GameManager.handleAction` (unnamed part_001, lines 45–73).  Returns the
state table paired with the outcome; every `throw` path returns the table
unchanged because the TS only stores the new state after the dispatch
succeeded. -/
def handleAction (store : Store) (action : GameAction) : Store × Except String GameState :=
  match lookupEntry store action.matchId with
  | none => (store, .error "Match not found")
  | some gameState =>
    if validateAction action gameState = false then (store, .error "Invalid action")
    else
      match action.type with
      | .MOVE =>
        match handleMoveAction action gameState with
        | .error e => (store, .error e)
        | .ok updatedState =>
          let stored := { updatedState with matchId := action.matchId }
          (setEntry store action.matchId stored, .ok stored)
      | .END_TURN =>
        let stored := { handleEndTurnAction action gameState with matchId := action.matchId }
        (setEntry store action.matchId stored, .ok stored)
      | _ => (store, .error "Action type not implemented")

/-- `GameManager.getGameState`. -/
def getGameState (store : Store) (matchId : String) : Option GameState :=
  (lookupEntry store matchId).map (fun gameState => { gameState with matchId := matchId })

/-! ## Match registry (`LobbyManager`, unnamed source part_000) -/

/-- The `LobbyManager`'s `matches` map. -/
abbrev Registry := List (String × Match)

/-- Result record of `joinMatch`: `{ success, match?, error? }`. -/
structure JoinResult where
  success : Bool
  matchRecord : Option Match := none
  error : Option String := none
deriving DecidableEq

/-- `LobbyManager.createMatch`.  The freshly generated UUID and `Date.now()`
are nondeterministic inputs of the TypeScript and are taken as arguments. -/
def createMatch (reg : Registry) (matchId : String) (now : Int) (playerName : String) :
    Match × Registry :=
  let m : Match :=
    { id := matchId, status := .waiting, createdAt := now, player1 := some playerName }
  (m, setEntry reg matchId m)

/-- `LobbyManager.joinMatch` (unnamed part_000, lines 127–160). -/
def joinMatch (reg : Registry) (matchId : String) (role : PlayerRole) (playerName : String) :
    JoinResult × Registry :=
  match lookupEntry reg matchId with
  | none => ({ success := false, error := some "Match not found" }, reg)
  | some m =>
    if ¬(m.status = .waiting) then
      ({ success := false, error := some "Match is not available for joining" }, reg)
    else if role = .player1 ∧ truthy m.player1 = true then
      ({ success := false, error := some "Player 1 slot is already taken" }, reg)
    else if role = .player2 ∧ truthy m.player2 = true then
      ({ success := false, error := some "Player 2 slot is already taken" }, reg)
    else
      let m1 :=
        if role = .player1 then { m with player1 := some playerName }
        else { m with player2 := some playerName }
      let m2 :=
        if truthy m1.player1 = true ∧ truthy m1.player2 = true then
          { m1 with status := .in_progress }
        else m1
      ({ success := true, matchRecord := some m2 }, setEntry reg matchId m2)

/-- `LobbyManager.handlePlayerExit` (unnamed part_000, lines 183–213).  When
the exiting player is alone in the match the record is deleted; otherwise the
match is marked completed and the display names are annotated, with JS
template semantics on a missing field (`"undefined (Lost)"`). -/
def handlePlayerExit (reg : Registry) (matchId : String) (playerId : String) :
    Option Match × Registry :=
  match lookupEntry reg matchId with
  | none => (none, reg)
  | some m =>
    if (playerId = "player1" ∧ truthy m.player2 = false)
        ∨ (playerId = "player2" ∧ truthy m.player1 = false) then
      (none, eraseEntry reg matchId)
    else
      let m1 := { m with status := MatchStatus.completed }
      let m2 :=
        if playerId = "player1" then
          { m1 with
            player1 := some (optStr m1.player1 ++ " (Lost)"),
            player2 := if truthy m1.player2 = true
              then some (optStr m1.player2 ++ " (Won)") else m1.player2 }
        else
          { m1 with
            player2 := some (optStr m1.player2 ++ " (Lost)"),
            player1 := if truthy m1.player1 = true
              then some (optStr m1.player1 ++ " (Won)") else m1.player1 }
      (some m2, setEntry reg matchId m2)

/-- `LobbyManager.cleanupOldMatches`. -/
def cleanupOldMatches (reg : Registry) (now maxAgeMs : Int) : Registry :=
  reg.filter (fun e => ¬(maxAgeMs < now - e.2.createdAt))

/-- Registries reachable from the `LobbyManager` constructor through the
registry operations named by the specification (`createMatch`, `joinMatch`,
`handlePlayerExit`, and the cleanup sweep). -/
inductive Reachable : Registry → Prop where
  | init : Reachable []
  | create (reg matchId now playerName) : Reachable reg →
      Reachable (createMatch reg matchId now playerName).2
  | join (reg matchId role playerName) : Reachable reg →
      Reachable (joinMatch reg matchId role playerName).2
  | exit (reg matchId playerId) : Reachable reg →
      Reachable (handlePlayerExit reg matchId playerId).2
  | cleanup (reg now maxAgeMs) : Reachable reg →
      Reachable (cleanupOldMatches reg now maxAgeMs)

/-! ## Socket `gameAction` handler (`server/src/index.ts`, lines 200–266) -/

/-- The `connectedPlayers` map value: `{ playerId, matchId }`. -/
structure ConnInfo where
  playerId : String
  matchId : String
deriving DecidableEq

/-- Who a socket emission is addressed to: `socket.emit` goes to the
originating connection only, `io.emit` goes to every connected client. -/
inductive EmitTarget where
  | origin
  | all
deriving DecidableEq

/-- One emission performed by the handler.  The acknowledgment callback and
the `actionError` emission of an error path address the same originating
socket and carry the same message/code, so they are modelled as one event. -/
structure EmitEvent where
  target : EmitTarget
  name : String
  message : String := ""
  code : Option String := none
  state : Option GameState := none
deriving DecidableEq

structure HandlerOut where
  connectedPlayers : List (String × ConnInfo)
  store : Store
  emits : List EmitEvent
deriving DecidableEq

/-- The set of connections that actually receive an emission, given the list
of currently connected socket ids. -/
def recipients (conns : List String) (origin : String) : EmitTarget → List String
  | .origin => [origin]
  | .all => conns

/-- The `socket.on('gameAction', ...)` handler of `server/src/index.ts`
(lines 200–266): missing-matchId check, lobby lookup, the player1-only
waiting check, connection-identity check and re-association, then
`gameManager.handleAction`; a thrown error is caught and emitted to the
originating socket only, while a success acknowledges the originator and
broadcasts `gameStateUpdate` with `io.emit`, i.e. to every connected
client. -/
def gameActionHandler (cp : List (String × ConnInfo)) (lobby : Registry) (store : Store)
    (socketId : String) (action : GameAction) : HandlerOut :=
  if action.matchId = "" then
    { connectedPlayers := cp, store := store,
      emits := [{ target := .origin, name := "actionError",
                  message := "No match ID provided with action" }] }
  else
    match lookupEntry lobby action.matchId with
    | none =>
      { connectedPlayers := cp, store := store,
        emits := [{ target := .origin, name := "actionError",
                    message := "Match not found" }] }
    | some m =>
      if action.playerId = "player1"
          ∧ (truthy m.player2 = false ∨ ¬(m.status = .in_progress)) then
        { connectedPlayers := cp, store := store,
          emits := [{ target := .origin, name := "actionError",
                      message := "Waiting for Player 2 to join",
                      code := some "WAITING_FOR_PLAYER2" }] }
      else
        match lookupEntry cp socketId with
        | none =>
          { connectedPlayers := cp, store := store,
            emits := [{ target := .origin, name := "actionError",
                        message := "Player not identified" }] }
        | some conn =>
          if conn.playerId = "" then
            { connectedPlayers := cp, store := store,
              emits := [{ target := .origin, name := "actionError",
                          message := "Player not identified" }] }
          else
            let cp1 :=
              if ¬(conn.matchId = action.matchId) then
                setEntry cp socketId { playerId := conn.playerId, matchId := action.matchId }
              else cp
            match handleAction store action with
            | (store1, .error e) =>
              { connectedPlayers := cp1, store := store1,
                emits := [{ target := .origin, name := "actionError", message := e }] }
            | (store1, .ok _) =>
              { connectedPlayers := cp1, store := store1,
                emits := [{ target := .origin, name := "ack" },
                          { target := .all, name := "gameStateUpdate",
                            state := getGameState store1 action.matchId }] }

/-! ## Concrete fixtures used by witnesses and counterexamples -/

def player1C : Player := { id := "player1", name := "Player 1", color := "#3498db" }

def player2C : Player := { id := "player2", name := "Player 2", color := "#e74c3c" }

def tiles5 : List (List TileType) := List.replicate 5 (List.replicate 5 TileType.EMPTY)

def scoutU : Unit :=
  { id := "u1", type := .SCOUT, position := ⟨0, 0⟩, owner := "player1",
    health := 60, maxHealth := 60, attack := 7, defense := 3, speed := 3 }

def mageU : Unit :=
  { id := "u2", type := .MAGE, position := ⟨0, 1⟩, owner := "player2",
    health := 70, maxHealth := 70, attack := 12, defense := 4, speed := 2 }

/-- A state whose board holds only the player1 scout: used to exhibit a valid
multi-tile move. -/
def gsLone : GameState :=
  { id := "g1",
    board := { width := 5, height := 5, tiles := tiles5, units := [scoutU] },
    currentTurnPlayerId := "player1", phase := .TURN_BASED,
    players := [player1C, player2C], matchId := "A" }

/-- A state with the player1 scout at (0,0) and a player2 mage at (0,1). -/
def gsDuel : GameState :=
  { id := "g2",
    board := { width := 5, height := 5, tiles := tiles5, units := [scoutU, mageU] },
    currentTurnPlayerId := "player1", phase := .TURN_BASED,
    players := [player1C, player2C], matchId := "A" }

/-- A MOVE by player1's scout onto the mage's tile (an attack). -/
def attackAct : GameAction :=
  { type := .MOVE, playerId := "player1", unitId := "u1",
    targetPosition := some ⟨0, 1⟩, matchId := "A" }

/-- An END_TURN submitted by player2 while it is player1's turn. -/
def wrongTurnAct : GameAction :=
  { type := .END_TURN, playerId := "player2", unitId := "",
    targetPosition := none, matchId := "A" }

/-- An END_TURN by player1 on its turn. -/
def endTurnAct : GameAction :=
  { type := .END_TURN, playerId := "player1", unitId := "",
    targetPosition := none, matchId := "A" }

def storeDuel : Store := [("A", gsDuel)]

/-- Registry produced by: create "m" as Alice, Bob joins slot 2, player2
exits.  The surviving record is completed with both slots annotated. -/
def regAfterExit : Registry :=
  (handlePlayerExit
    (joinMatch (createMatch [] "m" 0 "Alice").2 "m" .player2 "Bob").2
    "m" "player2").2

/-- The record `regAfterExit` stores under "m". -/
def matchAfterExit : Match :=
  { id := "m", player1 := some "Alice (Won)", player2 := some "Bob (Lost)",
    status := .completed, createdAt := 0 }

/-- A waiting match in which only slot 1 ("Alice") was ever filled. -/
def soloMatch : Match :=
  { id := "m", player1 := some "Alice", player2 := none,
    status := .waiting, createdAt := 0 }

def regSolo : Registry := [("m", soloMatch)]

/-- The match record reached by create("Alice") then join(player2, "Bob"). -/
def inProgressMatch : Match :=
  { id := "m", player1 := some "Alice", player2 := some "Bob",
    status := .in_progress, createdAt := 0 }

/-- A full in-progress match. -/
def fullMatch : Match :=
  { id := "A", player1 := some "Alice", player2 := some "Bob",
    status := .in_progress, createdAt := 0 }

def regFull : Registry := [("A", fullMatch)]

/-- Lobby for the handler scenarios: match "A" waiting for its second
player. -/
def waitingMatchA : Match :=
  { id := "A", player1 := some "Alice", player2 := none,
    status := .waiting, createdAt := 0 }

def lobbyWaiting : Registry := [("A", waitingMatchA)]

/-- Lobby with two in-progress matches "A" and "B". -/
def lobbyTwo : Registry :=
  [("A", fullMatch),
   ("B", { id := "B", player1 := some "Carol", player2 := some "Dave",
           status := .in_progress, createdAt := 0 })]

/-- Socket bindings: s1 plays match "A", s2 is bound to match "B". -/
def cpTwo : List (String × ConnInfo) :=
  [("s1", { playerId := "player1", matchId := "A" }),
   ("s2", { playerId := "player1", matchId := "B" })]

def cpWaiting : List (String × ConnInfo) :=
  [("s1", { playerId := "player1", matchId := "A" })]

/-- A MOVE submitted by player1 to the not-yet-full match "A". -/
def waitingMoveAct : GameAction :=
  { type := .MOVE, playerId := "player1", unitId := "u1",
    targetPosition := some ⟨0, 1⟩, matchId := "A" }

/-! ## Generic list helper lemmas -/

theorem findIdx?_of_find? {α : Type} (p : α → Bool) :
    ∀ (l : List α) (a : α), l.find? p = some a →
      ∃ i, l.findIdx? p = some i ∧ l[i]? = some a := by
  intro l
  induction l with
  | nil => intro a h; simp at h
  | cons x xs ih =>
    intro a h
    by_cases hx : p x
    · rw [List.find?_cons_of_pos _ hx] at h
      exact ⟨0, by simp [List.findIdx?_cons, hx], by simpa using h⟩
    · rw [List.find?_cons_of_neg _ hx] at h
      obtain ⟨i, hi, hg⟩ := ih a h
      exact ⟨i + 1, by simp [List.findIdx?_cons, hx, hi], by simpa using hg⟩

theorem findIdx?_elem {α : Type} (p : α → Bool) (l : List α) (i : Nat)
    (h : l.findIdx? p = some i) : ∃ a, l[i]? = some a ∧ p a = true := by
  rw [List.findIdx?_eq_some_iff_getElem] at h
  obtain ⟨hlt, hpa, -⟩ := h
  exact ⟨l[i], by simp, hpa⟩

theorem mem_eraseIdx_of_getElem?_ne {α : Type} (l : List α) (i j : Nat) (a : α)
    (hg : l[i]? = some a) (hne : ¬(i = j)) : a ∈ l.eraseIdx j := by
  rcases Nat.lt_or_ge i j with hij | hij
  · exact List.getElem?_mem ((List.getElem?_eraseIdx_of_lt l j i hij).trans hg)
  · have hij1 : 1 ≤ i := by omega
    have h1 := List.getElem?_eraseIdx_of_ge l j (i - 1) (by omega)
    rw [show i - 1 + 1 = i by omega] at h1
    exact List.getElem?_mem (h1.trans hg)

/-! ## Lemmas about the path-obstruction loop

`pathFree` walks one tile at a time; the four lemmas below (one per
direction) read off that a successful walk of `n` steps found every strictly
intermediate tile unoccupied. -/

theorem pathFree_right (units : List Unit) :
    ∀ (fuel n : Nat) (cx cy : Int), n ≤ fuel →
      pathFree units (cx + (n : Int)) cy 1 0 fuel cx cy = true →
      ∀ j : Nat, 1 ≤ j → j < n → occupiedAt units (cx + (j : Int)) cy = false := by
  intro fuel
  induction fuel with
  | zero => intro n cx cy hn _ j hj1 hj2; omega
  | succ fuel ih =>
    intro n cx cy hn hpf j hj1 hj2
    have hn2 : 2 ≤ n := by omega
    simp only [pathFree] at hpf
    rw [if_neg (by rintro ⟨e, -⟩; omega)] at hpf
    rw [if_neg (by rintro ⟨e, -⟩; omega)] at hpf
    by_cases hocc : occupiedAt units (cx + 1) (cy + 0) = true
    · rw [if_pos hocc] at hpf
      exact absurd hpf (by simp)
    · rw [if_neg hocc] at hpf
      rw [Bool.not_eq_true] at hocc
      rcases Nat.lt_or_ge j 2 with hj | hj
      · have hj1' : j = 1 := by omega
        subst hj1'
        rw [add_zero] at hocc
        simpa using hocc
      · have e1 : cx + (n : Int) = (cx + 1) + ((n - 1 : Nat) : Int) := by omega
        rw [e1, add_zero] at hpf
        have hres := ih (n - 1) (cx + 1) cy (by omega) hpf (j - 1) (by omega) (by omega)
        have e3 : (cx + 1) + ((j - 1 : Nat) : Int) = cx + (j : Int) := by omega
        rw [e3] at hres
        exact hres

theorem pathFree_left (units : List Unit) :
    ∀ (fuel n : Nat) (cx cy : Int), n ≤ fuel →
      pathFree units (cx - (n : Int)) cy (-1) 0 fuel cx cy = true →
      ∀ j : Nat, 1 ≤ j → j < n → occupiedAt units (cx - (j : Int)) cy = false := by
  intro fuel
  induction fuel with
  | zero => intro n cx cy hn _ j hj1 hj2; omega
  | succ fuel ih =>
    intro n cx cy hn hpf j hj1 hj2
    have hn2 : 2 ≤ n := by omega
    simp only [pathFree] at hpf
    rw [if_neg (by rintro ⟨e, -⟩; omega)] at hpf
    rw [if_neg (by rintro ⟨e, -⟩; omega)] at hpf
    by_cases hocc : occupiedAt units (cx + -1) (cy + 0) = true
    · rw [if_pos hocc] at hpf
      exact absurd hpf (by simp)
    · rw [if_neg hocc] at hpf
      rw [Bool.not_eq_true] at hocc
      rcases Nat.lt_or_ge j 2 with hj | hj
      · have hj1' : j = 1 := by omega
        subst hj1'
        rw [add_zero] at hocc
        have e0 : cx + (-1 : Int) = cx - ((1 : Nat) : Int) := by omega
        rw [e0] at hocc
        exact hocc
      · have e1 : cx - (n : Int) = (cx + -1) - ((n - 1 : Nat) : Int) := by omega
        rw [e1, add_zero] at hpf
        have hres := ih (n - 1) (cx + -1) cy (by omega) hpf (j - 1) (by omega) (by omega)
        have e3 : (cx + -1) - ((j - 1 : Nat) : Int) = cx - (j : Int) := by omega
        rw [e3] at hres
        exact hres

theorem pathFree_down (units : List Unit) :
    ∀ (fuel n : Nat) (cx cy : Int), n ≤ fuel →
      pathFree units cx (cy + (n : Int)) 0 1 fuel cx cy = true →
      ∀ j : Nat, 1 ≤ j → j < n → occupiedAt units cx (cy + (j : Int)) = false := by
  intro fuel
  induction fuel with
  | zero => intro n cx cy hn _ j hj1 hj2; omega
  | succ fuel ih =>
    intro n cx cy hn hpf j hj1 hj2
    have hn2 : 2 ≤ n := by omega
    simp only [pathFree] at hpf
    rw [if_neg (by rintro ⟨-, e⟩; omega)] at hpf
    rw [if_neg (by rintro ⟨-, e⟩; omega)] at hpf
    by_cases hocc : occupiedAt units (cx + 0) (cy + 1) = true
    · rw [if_pos hocc] at hpf
      exact absurd hpf (by simp)
    · rw [if_neg hocc] at hpf
      rw [Bool.not_eq_true] at hocc
      rcases Nat.lt_or_ge j 2 with hj | hj
      · have hj1' : j = 1 := by omega
        subst hj1'
        rw [add_zero] at hocc
        simpa using hocc
      · have e1 : cy + (n : Int) = (cy + 1) + ((n - 1 : Nat) : Int) := by omega
        rw [e1, add_zero] at hpf
        have hres := ih (n - 1) cx (cy + 1) (by omega) hpf (j - 1) (by omega) (by omega)
        have e3 : (cy + 1) + ((j - 1 : Nat) : Int) = cy + (j : Int) := by omega
        rw [e3] at hres
        exact hres

theorem pathFree_up (units : List Unit) :
    ∀ (fuel n : Nat) (cx cy : Int), n ≤ fuel →
      pathFree units cx (cy - (n : Int)) 0 (-1) fuel cx cy = true →
      ∀ j : Nat, 1 ≤ j → j < n → occupiedAt units cx (cy - (j : Int)) = false := by
  intro fuel
  induction fuel with
  | zero => intro n cx cy hn _ j hj1 hj2; omega
  | succ fuel ih =>
    intro n cx cy hn hpf j hj1 hj2
    have hn2 : 2 ≤ n := by omega
    simp only [pathFree] at hpf
    rw [if_neg (by rintro ⟨-, e⟩; omega)] at hpf
    rw [if_neg (by rintro ⟨-, e⟩; omega)] at hpf
    by_cases hocc : occupiedAt units (cx + 0) (cy + -1) = true
    · rw [if_pos hocc] at hpf
      exact absurd hpf (by simp)
    · rw [if_neg hocc] at hpf
      rw [Bool.not_eq_true] at hocc
      rcases Nat.lt_or_ge j 2 with hj | hj
      · have hj1' : j = 1 := by omega
        subst hj1'
        rw [add_zero] at hocc
        have e0 : cy + (-1 : Int) = cy - ((1 : Nat) : Int) := by omega
        rw [e0] at hocc
        exact hocc
      · have e1 : cy - (n : Int) = (cy + -1) - ((n - 1 : Nat) : Int) := by omega
        rw [e1, add_zero] at hpf
        have hres := ih (n - 1) cx (cy + -1) (by omega) hpf (j - 1) (by omega) (by omega)
        have e3 : (cy + -1) - ((j - 1 : Nat) : Int) = cy - (j : Int) := by omega
        rw [e3] at hres
        exact hres

/-- C1: a move accepted by `isValidMove` keeps the Manhattan distance (sum of
absolute row and column deltas) within the movement allowance of the unit's
kind, is never a diagonal displacement (both coordinates changed), and, when
the distance exceeds one step, finds every strictly intermediate tile of the
axis-aligned path unoccupied. -/
theorem isValidMove_manhattan_path (unit : Unit) (t : Position) (gs : GameState)
    (h : isValidMove unit t gs = true) :
    (t.x - unit.position.x).natAbs + (t.y - unit.position.y).natAbs
        ≤ MOVEMENT_LIMITS unit.type
    ∧ ¬(0 < (t.x - unit.position.x).natAbs ∧ 0 < (t.y - unit.position.y).natAbs)
    ∧ ∀ j : Nat, 1 ≤ j →
        j < (t.x - unit.position.x).natAbs + (t.y - unit.position.y).natAbs →
        occupiedAt gs.board.units
          (unit.position.x + (j : Int) * signI (t.x - unit.position.x))
          (unit.position.y + (j : Int) * signI (t.y - unit.position.y)) = false := by
  unfold isValidMove at h
  split_ifs at h with h1 h2 h3 h4 h5 h6 h7
  set d := (t.x - unit.position.x).natAbs + (t.y - unit.position.y).natAbs with hd
  refine ⟨by omega, h4, ?_⟩
  intro j hj1 hj2
  have hdgt : 1 < d := by omega
  have hpf : pathFree gs.board.units t.x t.y (signI (t.x - unit.position.x))
      (signI (t.y - unit.position.y)) d unit.position.x unit.position.y = true := by
    cases hb : pathFree gs.board.units t.x t.y (signI (t.x - unit.position.x))
        (signI (t.y - unit.position.y)) d unit.position.x unit.position.y with
    | false => exact absurd ⟨hdgt, hb⟩ h6
    | true => rfl
  have hxy : (t.x - unit.position.x).natAbs = 0 ∨ (t.y - unit.position.y).natAbs = 0 := by
    omega
  rcases hxy with hx | hy
  · -- vertical move: t.x = unit.position.x
    have htx : t.x = unit.position.x := by omega
    have hsx : signI (t.x - unit.position.x) = 0 := by
      unfold signI
      rw [if_neg (by omega), if_neg (by omega)]
    have ex : unit.position.x + (j : Int) * signI (t.x - unit.position.x)
        = unit.position.x := by rw [hsx]; ring
    rcases lt_trichotomy unit.position.y t.y with hgt | heq | hlt
    · have hsy : signI (t.y - unit.position.y) = 1 := by
        unfold signI
        rw [if_pos (by omega)]
      have ey : unit.position.y + (j : Int) * signI (t.y - unit.position.y)
          = unit.position.y + (j : Int) := by rw [hsy]; ring
      rw [hsx, hsy, htx] at hpf
      have ety : t.y = unit.position.y + (d : Int) := by omega
      rw [ety] at hpf
      have hres := pathFree_down gs.board.units d d unit.position.x unit.position.y
        le_rfl hpf j hj1 hj2
      rw [ex, ey]
      exact hres
    · exact absurd heq (by omega)
    · have hsy : signI (t.y - unit.position.y) = -1 := by
        unfold signI
        rw [if_neg (by omega), if_pos (by omega)]
      have ey : unit.position.y + (j : Int) * signI (t.y - unit.position.y)
          = unit.position.y - (j : Int) := by rw [hsy]; ring
      rw [hsx, hsy, htx] at hpf
      have ety : t.y = unit.position.y - (d : Int) := by omega
      rw [ety] at hpf
      have hres := pathFree_up gs.board.units d d unit.position.x unit.position.y
        le_rfl hpf j hj1 hj2
      rw [ex, ey]
      exact hres
  · -- horizontal move: t.y = unit.position.y
    have hty : t.y = unit.position.y := by omega
    have hsy : signI (t.y - unit.position.y) = 0 := by
      unfold signI
      rw [if_neg (by omega), if_neg (by omega)]
    have ey : unit.position.y + (j : Int) * signI (t.y - unit.position.y)
        = unit.position.y := by rw [hsy]; ring
    rcases lt_trichotomy unit.position.x t.x with hgt | heq | hlt
    · have hsx : signI (t.x - unit.position.x) = 1 := by
        unfold signI
        rw [if_pos (by omega)]
      have ex : unit.position.x + (j : Int) * signI (t.x - unit.position.x)
          = unit.position.x + (j : Int) := by rw [hsx]; ring
      rw [hsx, hsy, hty] at hpf
      have etx : t.x = unit.position.x + (d : Int) := by omega
      rw [etx] at hpf
      have hres := pathFree_right gs.board.units d d unit.position.x unit.position.y
        le_rfl hpf j hj1 hj2
      rw [ex, ey]
      exact hres
    · exact absurd heq (by omega)
    · have hsx : signI (t.x - unit.position.x) = -1 := by
        unfold signI
        rw [if_neg (by omega), if_pos (by omega)]
      have ex : unit.position.x + (j : Int) * signI (t.x - unit.position.x)
          = unit.position.x - (j : Int) := by rw [hsx]; ring
      rw [hsx, hsy, hty] at hpf
      have etx : t.x = unit.position.x - (d : Int) := by omega
      rw [etx] at hpf
      have hres := pathFree_left gs.board.units d d unit.position.x unit.position.y
        le_rfl hpf j hj1 hj2
      rw [ex, ey]
      exact hres

/-- Witness for C1: the scout's two-tile move (0,0) → (0,2) on an otherwise
empty board is accepted, and the theorem yields that the intermediate tile of
that move is unoccupied. -/
theorem isValidMove_manhattan_path_witness :
    isValidMove scoutU ⟨0, 2⟩ gsLone = true ∧
    occupiedAt gsLone.board.units
      (scoutU.position.x + ((1 : Nat) : Int) * signI ((⟨0, 2⟩ : Position).x - scoutU.position.x))
      (scoutU.position.y + ((1 : Nat) : Int) * signI ((⟨0, 2⟩ : Position).y - scoutU.position.y))
      = false :=
  ⟨by decide,
   (isValidMove_manhattan_path scoutU ⟨0, 2⟩ gsLone (by decide)).2.2 1 (by decide) (by decide)⟩

/-- C2: an action whose `playerId` differs from the stored state's turn
pointer is rejected by `handleAction` with the invalid-action error, and the
state table is returned exactly as it was. -/
theorem handleAction_wrong_turn (store : Store) (action : GameAction) (s : GameState)
    (hs : lookupEntry store action.matchId = some s)
    (hp : ¬(action.playerId = s.currentTurnPlayerId)) :
    handleAction store action = (store, .error "Invalid action") := by
  have hv : validateAction action s = false := by
    unfold validateAction
    by_cases h1 : action.playerId = "player1" ∧ s.players.length < 2
    · rw [if_pos h1]
    · rw [if_neg h1, if_pos hp]
  simp only [handleAction, hs]
  rw [if_pos hv]

/-- Witness for C2: player2's END_TURN while it is player1's turn is rejected
and the stored state is untouched. -/
theorem handleAction_wrong_turn_witness :
    lookupEntry storeDuel wrongTurnAct.matchId = some gsDuel ∧
    ¬(wrongTurnAct.playerId = gsDuel.currentTurnPlayerId) ∧
    handleAction storeDuel wrongTurnAct = (storeDuel, .error "Invalid action") :=
  ⟨by decide, by decide,
   handleAction_wrong_turn storeDuel wrongTurnAct gsDuel (by decide) (by decide)⟩

/-- C6: `handleEndTurnAction` moves the turn pointer to the other player of a
two-player match (so two consecutive end-turns restore it) and changes no
other field of the state. -/
theorem handleEndTurn_alternation (a : GameAction) (gs : GameState) (p1 p2 : Player)
    (hp : gs.players = [p1, p2]) (hne : ¬(p1.id = p2.id))
    (hcur : gs.currentTurnPlayerId = p1.id ∨ gs.currentTurnPlayerId = p2.id) :
    (handleEndTurnAction a gs).currentTurnPlayerId
        = (if gs.currentTurnPlayerId = p1.id then p2.id else p1.id)
    ∧ (handleEndTurnAction a (handleEndTurnAction a gs)).currentTurnPlayerId
        = gs.currentTurnPlayerId
    ∧ (handleEndTurnAction a gs).board = gs.board
    ∧ (handleEndTurnAction a gs).phase = gs.phase
    ∧ (handleEndTurnAction a gs).players = gs.players
    ∧ (handleEndTurnAction a gs).id = gs.id
    ∧ (handleEndTurnAction a gs).matchId = gs.matchId := by
  have hframe : ∀ gs' : GameState,
      (handleEndTurnAction a gs').board = gs'.board
      ∧ (handleEndTurnAction a gs').phase = gs'.phase
      ∧ (handleEndTurnAction a gs').players = gs'.players
      ∧ (handleEndTurnAction a gs').id = gs'.id
      ∧ (handleEndTurnAction a gs').matchId = gs'.matchId := by
    intro gs'
    unfold handleEndTurnAction
    cases hm : gs'.players[(((match gs'.players.findIdx?
        (fun p => p.id == gs'.currentTurnPlayerId) with
        | some i => (i : Int) | none => -1) + 1) % (gs'.players.length : Int)).toNat]? <;>
      simp [hm]
  have hstep1 : ∀ gs' : GameState, gs'.players = [p1, p2] →
      gs'.currentTurnPlayerId = p1.id →
      (handleEndTurnAction a gs').currentTurnPlayerId = p2.id := by
    intro gs' hpl hc
    unfold handleEndTurnAction
    rw [hpl, hc]
    simp [List.findIdx?_cons]
  have hstep2 : ∀ gs' : GameState, gs'.players = [p1, p2] →
      gs'.currentTurnPlayerId = p2.id →
      (handleEndTurnAction a gs').currentTurnPlayerId = p1.id := by
    intro gs' hpl hc
    unfold handleEndTurnAction
    rw [hpl, hc]
    simp [List.findIdx?_cons, hne]
  have hpl1 : (handleEndTurnAction a gs).players = [p1, p2] := by
    rw [(hframe gs).2.2.1, hp]
  rcases hcur with hc | hc
  · refine ⟨by rw [if_pos hc]; exact hstep1 gs hp hc, ?_, (hframe gs).1, (hframe gs).2.1,
      (hframe gs).2.2.1, (hframe gs).2.2.2.1, (hframe gs).2.2.2.2⟩
    rw [hstep2 _ hpl1 (hstep1 gs hp hc), hc]
  · have hcne : ¬(gs.currentTurnPlayerId = p1.id) := by rw [hc]; intro e; exact hne e.symm
    refine ⟨by rw [if_neg hcne]; exact hstep2 gs hp hc, ?_, (hframe gs).1, (hframe gs).2.1,
      (hframe gs).2.2.1, (hframe gs).2.2.2.1, (hframe gs).2.2.2.2⟩
    rw [hstep1 _ hpl1 (hstep2 gs hp hc), hc]

/-- C5: resolving a validated MOVE leaves the turn pointer (and phase,
players, board geometry) unchanged; if the first enemy unit standing on the
target tile exists it is removed — the unit list becomes the list with the
mover repositioned and that enemy erased, one unit shorter, and the mover now
stands at the target — and if no enemy occupies the target only the moving
unit's position changes. -/
theorem handleMove_resolution (action : GameAction) (gs : GameState) (tp : Position)
    (hv : validateAction action gs = true)
    (ht : action.type = GameActionType.MOVE)
    (htp : action.targetPosition = some tp) :
    ∃ gs' moverIdx mover,
      handleMoveAction action gs = .ok gs'
      ∧ gs.board.units.findIdx? (fun u => u.id == action.unitId) = some moverIdx
      ∧ gs.board.units[moverIdx]? = some mover
      ∧ gs'.currentTurnPlayerId = gs.currentTurnPlayerId
      ∧ gs'.phase = gs.phase
      ∧ gs'.players = gs.players
      ∧ gs'.id = gs.id
      ∧ gs'.board.width = gs.board.width
      ∧ gs'.board.height = gs.board.height
      ∧ gs'.board.tiles = gs.board.tiles
      ∧ (∀ enemyIdx, gs.board.units.findIdx? (fun u =>
            u.position.x == tp.x && u.position.y == tp.y && !(u.owner == mover.owner))
            = some enemyIdx →
          gs'.board.units
              = (gs.board.units.set moverIdx { mover with position := tp }).eraseIdx enemyIdx
          ∧ gs'.board.units.length + 1 = gs.board.units.length
          ∧ { mover with position := tp } ∈ gs'.board.units)
      ∧ (gs.board.units.findIdx? (fun u =>
            u.position.x == tp.x && u.position.y == tp.y && !(u.owner == mover.owner)) = none →
          gs'.board.units = gs.board.units.set moverIdx { mover with position := tp }) := by
  have hfind : ∃ mover, gs.board.units.find? (fun u => u.id == action.unitId) = some mover := by
    unfold validateAction at hv
    split_ifs at hv with h1 h2 h3 h4 h5
    · rw [ht] at h4
      exact absurd h4 (by decide)
    all_goals
      cases hfm : gs.board.units.find? (fun u => u.id == action.unitId) with
      | none => rw [hfm] at hv; simp at hv
      | some mover => exact ⟨mover, rfl⟩
  obtain ⟨mover, hfm⟩ := hfind
  obtain ⟨moverIdx, hidx, hget⟩ := findIdx?_of_find? _ _ _ hfm
  have hmlt : moverIdx < gs.board.units.length := by
    rcases List.getElem?_eq_some_iff.mp hget with ⟨h, -⟩
    exact h
  cases hen : gs.board.units.findIdx? (fun u =>
      u.position.x == tp.x && u.position.y == tp.y && !(u.owner == mover.owner)) with
  | some eIdx =>
    refine ⟨{ gs with board := { gs.board with units :=
        (gs.board.units.set moverIdx { mover with position := tp }).eraseIdx eIdx } },
      moverIdx, mover, ?_, hidx, hget, rfl, rfl, rfl, rfl, rfl, rfl, rfl, ?_, ?_⟩
    · simp only [handleMoveAction, htp, hidx, hget, hen]
    · intro eIdx2 he'
      have heq : eIdx2 = eIdx := by
        rw [hen] at he'
        exact (Option.some.inj he').symm
      rw [heq]
      have helt : eIdx < (gs.board.units.set moverIdx { mover with position := tp }).length := by
        rw [List.length_set]
        obtain ⟨e, hge, -⟩ := findIdx?_elem _ _ _ hen
        rcases List.getElem?_eq_some_iff.mp hge with ⟨h, -⟩
        exact h
      refine ⟨rfl, ?_, ?_⟩
      · rw [List.length_eraseIdx_of_lt helt, List.length_set]
        omega
      · have hneq : ¬(moverIdx = eIdx) := by
          intro e
          obtain ⟨en, hgen, hpen⟩ := findIdx?_elem _ _ _ hen
          rw [← e, hget] at hgen
          injection hgen with hh
          rw [← hh] at hpen
          simp at hpen
        have hsetget : (gs.board.units.set moverIdx { mover with position := tp })[moverIdx]?
            = some { mover with position := tp } := List.getElem?_set_self (by simpa using hmlt)
        exact mem_eraseIdx_of_getElem?_ne _ _ _ _ hsetget hneq
    · intro hnone
      rw [hen] at hnone
      exact absurd hnone (by simp)
  | none =>
    refine ⟨{ gs with board := { gs.board with units :=
        (gs.board.units.set moverIdx { mover with position := tp }) } },
      moverIdx, mover, ?_, hidx, hget, rfl, rfl, rfl, rfl, rfl, rfl, rfl, ?_, ?_⟩
    · simp only [handleMoveAction, htp, hidx, hget, hen]
    · intro eIdx he'
      rw [hen] at he'
      exact absurd he' (by simp)
    · intro _
      rfl

/-- Witness for C5: player1's scout attacks the mage on (0,1); the move is
validated, the mage is removed and the scout stands on (0,1), with the turn
pointer untouched. -/
theorem handleMove_resolution_witness :
    validateAction attackAct gsDuel = true ∧
    (∃ gs' moverIdx mover,
      handleMoveAction attackAct gsDuel = .ok gs'
      ∧ gsDuel.board.units.findIdx? (fun u => u.id == attackAct.unitId) = some moverIdx
      ∧ gsDuel.board.units[moverIdx]? = some mover
      ∧ gs'.currentTurnPlayerId = gsDuel.currentTurnPlayerId
      ∧ gs'.phase = gsDuel.phase
      ∧ gs'.players = gsDuel.players
      ∧ gs'.id = gsDuel.id
      ∧ gs'.board.width = gsDuel.board.width
      ∧ gs'.board.height = gsDuel.board.height
      ∧ gs'.board.tiles = gsDuel.board.tiles
      ∧ (∀ enemyIdx, gsDuel.board.units.findIdx? (fun u =>
            u.position.x == (⟨0, 1⟩ : Position).x && u.position.y == (⟨0, 1⟩ : Position).y
              && !(u.owner == mover.owner)) = some enemyIdx →
          gs'.board.units = (gsDuel.board.units.set moverIdx
              { mover with position := ⟨0, 1⟩ }).eraseIdx enemyIdx
          ∧ gs'.board.units.length + 1 = gsDuel.board.units.length
          ∧ { mover with position := (⟨0, 1⟩ : Position) } ∈ gs'.board.units)
      ∧ (gsDuel.board.units.findIdx? (fun u =>
            u.position.x == (⟨0, 1⟩ : Position).x && u.position.y == (⟨0, 1⟩ : Position).y
              && !(u.owner == mover.owner)) = none →
          gs'.board.units = gsDuel.board.units.set moverIdx
            { mover with position := ⟨0, 1⟩ })) :=
  ⟨by decide, handleMove_resolution attackAct gsDuel ⟨0, 1⟩ (by decide) rfl rfl⟩

/-- Witness for C6: in the concrete two-player duel state an end-turn passes
the turn from player1 to player2 and a second end-turn restores it. -/
theorem handleEndTurn_alternation_witness :
    gsDuel.players = [player1C, player2C] ∧ ¬(player1C.id = player2C.id) ∧
    (handleEndTurnAction endTurnAct gsDuel).currentTurnPlayerId
        = (if gsDuel.currentTurnPlayerId = player1C.id then player2C.id else player1C.id) ∧
    (handleEndTurnAction endTurnAct (handleEndTurnAction endTurnAct gsDuel)).currentTurnPlayerId
        = gsDuel.currentTurnPlayerId ∧
    (handleEndTurnAction endTurnAct gsDuel).board = gsDuel.board :=
  ⟨rfl, by decide,
   (handleEndTurn_alternation endTurnAct gsDuel player1C player2C rfl (by decide)
      (Or.inl rfl)).1,
   (handleEndTurn_alternation endTurnAct gsDuel player1C player2C rfl (by decide)
      (Or.inl rfl)).2.1,
   (handleEndTurn_alternation endTurnAct gsDuel player1C player2C rfl (by decide)
      (Or.inl rfl)).2.2.1⟩


/-! ## Registry lemmas -/

theorem mem_setEntry {β : Type} :
    ∀ (l : List (String × β)) (k : String) (v : β) (e : String × β),
      e ∈ setEntry l k v → e = (k, v) ∨ e ∈ l := by
  intro l k v
  induction l with
  | nil =>
    intro e he
    simp [setEntry] at he
    exact Or.inl he
  | cons x xs ih =>
    obtain ⟨xk, xv⟩ := x
    intro e he
    simp only [setEntry] at he
    by_cases hk : xk = k
    · rw [if_pos hk] at he
      rcases List.mem_cons.mp he with h | h
      · exact Or.inl h
      · exact Or.inr (List.mem_cons_of_mem _ h)
    · rw [if_neg hk] at he
      rcases List.mem_cons.mp he with h | h
      · exact Or.inr (h ▸ List.mem_cons_self _ _)
      · rcases ih e h with h1 | h1
        · exact Or.inl h1
        · exact Or.inr (List.mem_cons_of_mem _ h1)

theorem lookupEntry_eraseEntry {β : Type} (l : List (String × β)) (k : String) :
    lookupEntry (eraseEntry l k) k = none := by
  induction l with
  | nil => rfl
  | cons x xs ih =>
    obtain ⟨xk, xv⟩ := x
    by_cases hk : xk = k
    · have hb : (!(xk == k)) = false := by simp [hk]
      simp only [eraseEntry, List.filter_cons, hb] at *
      exact ih
    · have hb : (!(xk == k)) = true := by simp [hk]
      simp only [eraseEntry, List.filter_cons, hb, if_true] at *
      rw [lookupEntry, if_neg hk]
      exact ih

/-- Counterexample to C4 as stated: the registry reached by create("Alice"),
join(player2, "Bob"), exit("player2") holds a match whose two slots are both
filled while its status is completed, not in_progress, so
"in_progress ⇔ both slots filled" fails in the ⇐ direction. -/
theorem registry_slot_invariant_cex :
    Reachable regAfterExit
    ∧ ("m", matchAfterExit) ∈ regAfterExit
    ∧ truthy matchAfterExit.player1 = true
    ∧ truthy matchAfterExit.player2 = true
    ∧ ¬(matchAfterExit.status = MatchStatus.in_progress) :=
  ⟨Reachable.exit _ _ _ (Reachable.join _ _ _ _ (Reachable.create _ _ _ _ Reachable.init)),
   by decide, by decide, by decide, by decide⟩

/-- C4 (amended): in every reachable registry, a match that is in progress
has both slots filled (non-empty names), and a waiting match never has both
slots filled; a completed match is exempt — after an exit both slots stay
filled while the status is completed. -/
theorem registry_slot_invariant (reg : Registry) (h : Reachable reg) :
    ∀ e ∈ reg,
      ((e : String × Match).2.status = MatchStatus.in_progress →
        truthy e.2.player1 = true ∧ truthy e.2.player2 = true)
      ∧ (e.2.status = MatchStatus.waiting →
        ¬(truthy e.2.player1 = true ∧ truthy e.2.player2 = true)) := by
  induction h with
  | init => intro e he; simp at he
  | create reg matchId now playerName hreach ih =>
    intro e he
    simp only [createMatch] at he
    rcases mem_setEntry _ _ _ _ he with he1 | he1
    · subst he1
      refine ⟨fun hst => by simp at hst, fun _ => ?_⟩
      rintro ⟨-, hp2⟩
      simp [truthy] at hp2
    · exact ih e he1
  | join reg matchId role playerName hreach ih =>
    intro e he
    cases hlk : lookupEntry reg matchId with
    | none =>
      simp only [joinMatch, hlk] at he
      exact ih e he
    | some m =>
      simp only [joinMatch, hlk] at he
      split_ifs at he with c1 c2 c3 c4 c5 c6
      · exact ih e he
      · exact ih e he
      · rcases mem_setEntry _ _ _ _ he with he1 | he1
        · subst he1
          exact ⟨fun _ => c5, fun hw => by simp at hw⟩
        · exact ih e he1
      · rcases mem_setEntry _ _ _ _ he with he1 | he1
        · subst he1
          refine ⟨fun hst => ?_, fun _ => c5⟩
          have hms : m.status = MatchStatus.in_progress := hst
          rw [c1] at hms
          exact absurd hms (by decide)
        · exact ih e he1
      · rcases mem_setEntry _ _ _ _ he with he1 | he1
        · subst he1
          exact ⟨fun _ => c6, fun hw => by simp at hw⟩
        · exact ih e he1
      · rcases mem_setEntry _ _ _ _ he with he1 | he1
        · subst he1
          refine ⟨fun hst => ?_, fun _ => c6⟩
          have hms : m.status = MatchStatus.in_progress := hst
          rw [c1] at hms
          exact absurd hms (by decide)
        · exact ih e he1
      · exact ih e he
  | exit reg matchId playerId hreach ih =>
    intro e he
    cases hlk : lookupEntry reg matchId with
    | none =>
      simp only [handlePlayerExit, hlk] at he
      exact ih e he
    | some m =>
      simp only [handlePlayerExit, hlk] at he
      split_ifs at he with c1 c2 c3 c4
      · exact ih e (List.mem_filter.mp he).1
      · rcases mem_setEntry _ _ _ _ he with he1 | he1
        · subst he1
          exact ⟨fun hst => by simp at hst, fun hw => by simp at hw⟩
        · exact ih e he1
      · rcases mem_setEntry _ _ _ _ he with he1 | he1
        · subst he1
          exact ⟨fun hst => by simp at hst, fun hw => by simp at hw⟩
        · exact ih e he1
      · rcases mem_setEntry _ _ _ _ he with he1 | he1
        · subst he1
          exact ⟨fun hst => by simp at hst, fun hw => by simp at hw⟩
        · exact ih e he1
      · rcases mem_setEntry _ _ _ _ he with he1 | he1
        · subst he1
          exact ⟨fun hst => by simp at hst, fun hw => by simp at hw⟩
        · exact ih e he1
  | cleanup reg now maxAgeMs hreach ih =>
    intro e he
    simp only [cleanupOldMatches] at he
    exact ih e (List.mem_filter.mp he).1

/-- Witness for C4 (amended): the invariant evaluated on a reachable
registry holding an in-progress match. -/
theorem registry_slot_invariant_witness :
    Reachable [("m", inProgressMatch)]
    ∧ (truthy inProgressMatch.player1 = true ∧ truthy inProgressMatch.player2 = true) := by
  have hreg : (joinMatch (createMatch [] "m" 0 "Alice").2 "m" PlayerRole.player2 "Bob").2
      = [("m", inProgressMatch)] := by decide
  have hreach : Reachable [("m", inProgressMatch)] :=
    hreg ▸ Reachable.join _ _ _ _ (Reachable.create _ _ _ _ Reachable.init)
  exact ⟨hreach,
    (registry_slot_invariant _ hreach ("m", inProgressMatch) (by decide)).1 rfl⟩

/-- Counterexample to C7 as stated: `regSolo` has exactly one slot ever
filled (only "Alice" in slot 1), yet a player exit naming the other slot does
not delete the match — the record survives, marked completed with the absent
slot annotated "undefined (Lost)". -/
theorem handlePlayerExit_solo_cex :
    (handlePlayerExit regSolo "m" "player2").1
      = some { id := "m", player1 := some "Alice (Won)",
               player2 := some "undefined (Lost)",
               status := .completed, createdAt := 0 }
    ∧ lookupEntry (handlePlayerExit regSolo "m" "player2").2 "m"
      = some { id := "m", player1 := some "Alice (Won)",
               player2 := some "undefined (Lost)",
               status := .completed, createdAt := 0 } := by decide

/-- C7 (amended): an exit by the occupant of the only filled slot deletes the
match outright (it is no longer in the registry); when both slots are filled,
an exit by either player marks the match completed, annotates the exiting
slot's name with " (Lost)" and the remaining slot's name with " (Won)", and
returns the updated match.  An exit naming the empty slot of a half-filled
match does not delete it. -/
theorem handlePlayerExit_spec (reg : Registry) (matchId : String) (m : Match)
    (hm : lookupEntry reg matchId = some m) :
    (truthy m.player2 = false →
      handlePlayerExit reg matchId "player1" = (none, eraseEntry reg matchId)
      ∧ lookupEntry (handlePlayerExit reg matchId "player1").2 matchId = none)
    ∧ (truthy m.player1 = false →
      handlePlayerExit reg matchId "player2" = (none, eraseEntry reg matchId)
      ∧ lookupEntry (handlePlayerExit reg matchId "player2").2 matchId = none)
    ∧ (∀ s1 s2, m.player1 = some s1 → m.player2 = some s2 →
        ¬(s1 = "") → ¬(s2 = "") →
        handlePlayerExit reg matchId "player1"
          = (some { m with
                    status := .completed,
                    player1 := some (s1 ++ " (Lost)"),
                    player2 := some (s2 ++ " (Won)") },
             setEntry reg matchId { m with
                    status := .completed,
                    player1 := some (s1 ++ " (Lost)"),
                    player2 := some (s2 ++ " (Won)") })
        ∧ handlePlayerExit reg matchId "player2"
          = (some { m with
                    status := .completed,
                    player1 := some (s1 ++ " (Won)"),
                    player2 := some (s2 ++ " (Lost)") },
             setEntry reg matchId { m with
                    status := .completed,
                    player1 := some (s1 ++ " (Won)"),
                    player2 := some (s2 ++ " (Lost)") })) := by
  refine ⟨fun h2 => ?_, fun h1 => ?_, fun s1 s2 hs1 hs2 hne1 hne2 => ?_⟩
  · have heq : handlePlayerExit reg matchId "player1" = (none, eraseEntry reg matchId) := by
      simp only [handlePlayerExit, hm]
      rw [if_pos (Or.inl ⟨trivial, h2⟩)]
    exact ⟨heq, by rw [heq]; exact lookupEntry_eraseEntry reg matchId⟩
  · have heq : handlePlayerExit reg matchId "player2" = (none, eraseEntry reg matchId) := by
      simp only [handlePlayerExit, hm]
      rw [if_pos (Or.inr ⟨trivial, h1⟩)]
    exact ⟨heq, by rw [heq]; exact lookupEntry_eraseEntry reg matchId⟩
  · have ht1 : truthy m.player1 = true := by rw [hs1]; simp [truthy, hne1]
    have ht2 : truthy m.player2 = true := by rw [hs2]; simp [truthy, hne2]
    constructor
    · simp only [handlePlayerExit, hm]
      rw [if_neg (by
        rintro (⟨-, h⟩ | ⟨h, -⟩)
        · rw [ht2] at h
          exact absurd h (by decide)
        · exact absurd h (by decide))]
      simp [optStr, truthy, hs1, hs2, hne1, hne2]
    · simp only [handlePlayerExit, hm]
      rw [if_neg (by
        rintro (⟨h, -⟩ | ⟨-, h⟩)
        · exact absurd h (by decide)
        · rw [ht1] at h
          exact absurd h (by decide))]
      simp [optStr, truthy, hs1, hs2, hne1, hne2]

/-- Witness for C7 (amended): Alice alone exits and the solo match is removed;
in a full match Bob (player2) exits and the record becomes completed with
"Alice (Won)" / "Bob (Lost)". -/
theorem handlePlayerExit_spec_witness :
    lookupEntry regSolo "m" = some soloMatch
    ∧ truthy soloMatch.player2 = false
    ∧ handlePlayerExit regSolo "m" "player1" = (none, eraseEntry regSolo "m")
    ∧ lookupEntry regFull "A" = some fullMatch
    ∧ handlePlayerExit regFull "A" "player2"
        = (some { fullMatch with
                  status := .completed,
                  player1 := some ("Alice" ++ " (Won)"),
                  player2 := some ("Bob" ++ " (Lost)") },
           setEntry regFull "A" { fullMatch with
                  status := .completed,
                  player1 := some ("Alice" ++ " (Won)"),
                  player2 := some ("Bob" ++ " (Lost)") }) :=
  ⟨by decide, by decide,
   ((handlePlayerExit_spec regSolo "m" soloMatch (by decide)).1 (by decide)).1,
   by decide,
   ((handlePlayerExit_spec regFull "A" fullMatch (by decide)).2.2 "Alice" "Bob" rfl rfl
      (by decide) (by decide)).2⟩

/-! ## Socket handler lemmas -/

/-- The player1-only waiting branch of the `gameAction` handler: shared
computation lemma. -/
theorem gameActionHandler_waiting (cp : List (String × ConnInfo)) (lobby : Registry)
    (store : Store) (socketId : String) (action : GameAction) (m : Match)
    (hmid : ¬(action.matchId = ""))
    (hlk : lookupEntry lobby action.matchId = some m)
    (hp : action.playerId = "player1")
    (hw : truthy m.player2 = false ∨ ¬(m.status = MatchStatus.in_progress)) :
    gameActionHandler cp lobby store socketId action
      = { connectedPlayers := cp, store := store,
          emits := [{ target := .origin, name := "actionError",
                      message := "Waiting for Player 2 to join",
                      code := some "WAITING_FOR_PLAYER2" }] } := by
  simp only [gameActionHandler, hlk]
  rw [if_neg hmid, if_pos ⟨hp, hw⟩]

/-- Counterexample to C8 as stated: the player1 action on the not-yet-full
match is answered with the code WAITING_FOR_PLAYER2; no emitted event carries
the code WAITING_FOR_OPPONENT the specification names. -/
theorem waiting_error_code_cex :
    (gameActionHandler cpWaiting lobbyWaiting [] "s1" waitingMoveAct).emits
      = [{ target := .origin, name := "actionError",
           message := "Waiting for Player 2 to join", code := some "WAITING_FOR_PLAYER2" }]
    ∧ ((gameActionHandler cpWaiting lobbyWaiting [] "s1" waitingMoveAct).emits.all
        (fun e => !(e.code == some "WAITING_FOR_OPPONENT"))) = true := by decide

/-- C8 (amended): an action claiming player1 on a match whose second slot is
empty or whose status is not in_progress is answered — to the submitting
connection only — with the machine-readable code WAITING_FOR_PLAYER2 (not
WAITING_FOR_OPPONENT), distinguishing it from generic invalid-action errors;
actions claiming other player ids never receive this code. -/
theorem waiting_error_code (cp : List (String × ConnInfo)) (lobby : Registry)
    (store : Store) (socketId : String) (action : GameAction) (m : Match)
    (hmid : ¬(action.matchId = ""))
    (hlk : lookupEntry lobby action.matchId = some m)
    (hp : action.playerId = "player1")
    (hw : truthy m.player2 = false ∨ ¬(m.status = MatchStatus.in_progress)) :
    gameActionHandler cp lobby store socketId action
      = { connectedPlayers := cp, store := store,
          emits := [{ target := .origin, name := "actionError",
                      message := "Waiting for Player 2 to join",
                      code := some "WAITING_FOR_PLAYER2" }] } :=
  gameActionHandler_waiting cp lobby store socketId action m hmid hlk hp hw

/-- Witness for C8 (amended): concrete waiting lobby, player1 move. -/
theorem waiting_error_code_witness :
    ¬(waitingMoveAct.matchId = "")
    ∧ lookupEntry lobbyWaiting waitingMoveAct.matchId = some waitingMatchA
    ∧ waitingMoveAct.playerId = "player1"
    ∧ truthy waitingMatchA.player2 = false
    ∧ gameActionHandler cpWaiting lobbyWaiting [] "s1" waitingMoveAct
      = { connectedPlayers := cpWaiting, store := [],
          emits := [{ target := .origin, name := "actionError",
                      message := "Waiting for Player 2 to join",
                      code := some "WAITING_FOR_PLAYER2" }] } :=
  ⟨by decide, by decide, by decide, by decide,
   waiting_error_code cpWaiting lobbyWaiting [] "s1" waitingMoveAct waitingMatchA
     (by decide) (by decide) rfl (Or.inl (by decide))⟩

/-- C9: the broadcast defect at a concrete failing input.  A valid END_TURN
on match "A" succeeds and the handler emits the `gameStateUpdate` with
`io.emit`, i.e. addressed to all connected clients: socket "s2", although
bound to match "B" ≠ "A", is among the recipients of the state update. -/
theorem broadcast_to_all_bug :
    ((gameActionHandler cpTwo lobbyTwo storeDuel "s1" endTurnAct).emits.map EmitEvent.name
        = ["ack", "gameStateUpdate"])
    ∧ ((gameActionHandler cpTwo lobbyTwo storeDuel "s1" endTurnAct).emits.map EmitEvent.target
        = [EmitTarget.origin, EmitTarget.all])
    ∧ "s2" ∈ recipients ["s1", "s2"] "s1" EmitTarget.all
    ∧ (lookupEntry cpTwo "s2").map ConnInfo.matchId = some "B"
    ∧ ¬(("B" : String) = endTurnAct.matchId) := by decide

/-- C10: the waiting-for-opponent check is asymmetric.  A player1 action on a
match that is not in progress gets the WAITING_FOR_PLAYER2 code; an action
claiming any other playerId is never given any error code at all — every
event such an action can produce (including engine-validation rejections)
carries `code = none`. -/
theorem waiting_check_asymmetric :
    (∀ (cp : List (String × ConnInfo)) (lobby : Registry) (store : Store)
        (socketId : String) (action : GameAction) (m : Match),
      ¬(action.matchId = "") →
      lookupEntry lobby action.matchId = some m →
      action.playerId = "player1" →
      (truthy m.player2 = false ∨ ¬(m.status = MatchStatus.in_progress)) →
      (gameActionHandler cp lobby store socketId action).emits
        = [{ target := .origin, name := "actionError",
             message := "Waiting for Player 2 to join",
             code := some "WAITING_FOR_PLAYER2" }])
    ∧ (∀ (cp : List (String × ConnInfo)) (lobby : Registry) (store : Store)
        (socketId : String) (action : GameAction),
      ¬(action.playerId = "player1") →
      ∀ e ∈ (gameActionHandler cp lobby store socketId action).emits, e.code = none) := by
  constructor
  · intro cp lobby store socketId action m hmid hlk hp hw
    rw [gameActionHandler_waiting cp lobby store socketId action m hmid hlk hp hw]
  · intro cp lobby store socketId action hp e he
    by_cases h0 : action.matchId = ""
    · simp only [gameActionHandler, if_pos h0] at he
      simp at he
      subst he
      rfl
    · simp only [gameActionHandler] at he
      rw [if_neg h0] at he
      cases hlk : lookupEntry lobby action.matchId with
      | none =>
        simp only [hlk] at he
        simp at he
        subst he
        rfl
      | some m =>
        simp only [hlk] at he
        rw [if_neg (by rintro ⟨h, -⟩; exact hp h)] at he
        cases hcp : lookupEntry cp socketId with
        | none =>
          simp only [hcp] at he
          simp at he
          subst he
          rfl
        | some conn =>
          simp only [hcp] at he
          by_cases hpid : conn.playerId = ""
          · rw [if_pos hpid] at he
            simp at he
            subst he
            rfl
          · rw [if_neg hpid] at he
            cases hha : handleAction store action with
            | mk store1 res =>
              simp only [hha] at he
              cases res with
              | error msg =>
                simp at he
                subst he
                rfl
              | ok st =>
                simp at he
                rcases he with he | he <;> subst he <;> rfl

/-- Witness for C10: player1's move on the waiting match gets the
WAITING_FOR_PLAYER2 code, while player2's action (rejected by the engine with
"Match not found" here) carries no code. -/
theorem waiting_check_asymmetric_witness :
    ¬(wrongTurnAct.playerId = "player1")
    ∧ ({ target := .origin, name := "actionError", message := "Match not found",
         code := none } : EmitEvent).code = none
    ∧ (gameActionHandler cpWaiting lobbyWaiting [] "s1" waitingMoveAct).emits
      = [{ target := .origin, name := "actionError",
           message := "Waiting for Player 2 to join", code := some "WAITING_FOR_PLAYER2" }] :=
  ⟨by decide,
   waiting_check_asymmetric.2 cpWaiting lobbyWaiting [] "s1" wrongTurnAct (by decide)
     { target := .origin, name := "actionError", message := "Match not found", code := none }
     (by decide),
   waiting_check_asymmetric.1 cpWaiting lobbyWaiting [] "s1" waitingMoveAct waitingMatchA
     (by decide) (by decide) rfl (Or.inl (by decide))⟩

end Archess
